import Mathlib

/-!
Shallow embedding of the Python snippets contained in the fastai tutorial
notebook `docs_src/tutorial.itemlist.ipynb`, and proofs about them.

Tensors of floats are modelled as flat lists of rationals (`List ℚ`):
elementwise comparisons and the 0.0/1.0 results of `.float()` are exact,
so `ℚ` is a faithful carrier for the arithmetic the snippets perform.
Python side effects are modelled by explicit state passing, and a Python
function that falls off its end without a `return` statement is modelled
as returning `none`.
-/

namespace FastaiTutorial

/-- A float tensor, flattened to a list of rationals. Elementwise
operations act position by position, and the shape of a result being
"the same as" the input is its length being equal. -/
abbrev Tensor := List ℚ

/-- An `Image` item of the external framework: the tutorial only relies on
it carrying a `size` (consulted by `ImageItemList.get` and by
`PointsItemList.reconstruct` through `x.size`) next to its pixel
contents. -/
structure Image where
  size : ℕ × ℕ
  pixels : Tensor
  deriving DecidableEq

/-- State of an `ImageItemList` as used by its `get` method: `items`
holds the stored references (filenames) and `sizes` records, per index,
the size of the item constructed there (`none` before `get` touched that
index). -/
structure ImageItemListState where
  items : List String
  sizes : List (Option (ℕ × ℕ))
  deriving DecidableEq

/-- Embedding of `ImageItemList.open` from the notebook (`open` is a Lean
keyword, hence the trailing underscore):
`def open(self, fn): return open_image(fn)`.
`open_image` is an external library function, passed in as `openImage`. -/
def ImageItemList.open_ (openImage : String → Image) (fn : String) : Image :=
  openImage fn

/-- Embedding of `ImageItemList.get` from the notebook:
```
def get(self, i):
    fn = super().get(i)
    res = self.open(fn)
    self.sizes[i] = res.size
    return res
```
`super().get(i)` looks up `self.items[i]`; the assignment to
`self.sizes[i]` is modelled by returning the updated state next to the
result. -/
def ImageItemList.get (openImage : String → Image) (s : ImageItemListState)
    (i : ℕ) (h : i < s.items.length) : Image × ImageItemListState :=
  let fn := s.items.get ⟨i, h⟩
  let res := ImageItemList.open_ openImage fn
  (res, { s with sizes := s.sizes.set i (some res.size) })

/-- A `FlowField` as constructed in the notebook's `reconstruct` snippet:
a size together with a tensor of point coordinates. -/
structure FlowField where
  size : ℕ × ℕ
  flow : Tensor
  deriving DecidableEq

/-- An `ImagePoints` item as constructed in the notebook's `reconstruct`
snippet: a flow field plus the `scale` flag. -/
structure ImagePoints where
  flow : FlowField
  scale : Bool
  deriving DecidableEq

/-- Embedding of `PointsItemList.reconstruct` from the notebook:
`def reconstruct(self, t, x): return ImagePoints(FlowField(x.size, t), scale=False)`. -/
def PointsItemList.reconstruct (t : Tensor) (x : Image) : ImagePoints :=
  { flow := { size := x.size, flow := t }, scale := false }

/-- Modelled from the spec: `ItemBase.data` of an `ImagePoints` item.
The implementation is not in `src` (only `reconstruct` is); the spec says
`ItemBase.data` "is the thing that is passed to pytorch" and that
`reconstruct` "does the opposite of calling ItemBase.data", taking "a
tensor `t`" back to the item, so for points the data tensor is the
coordinate tensor stored in the flow field. -/
def ImagePoints.data (p : ImagePoints) : Tensor :=
  p.flow.flow

/-- State of an `ItemList` as seen by `SegmentationProcessor`: the
`classes` and `c` attributes it writes, plus a frame `other` standing for
every other attribute of the dataset. -/
structure ItemListDS (β : Type) where
  classes : List String
  c : ℕ
  other : β
  deriving DecidableEq

/-- A `SegmentationProcessor`: its whole state is the `classes` captured
at construction. -/
structure SegmentationProcessor where
  classes : List String
  deriving DecidableEq

/-- Embedding of `SegmentationProcessor.__init__` from the notebook:
`def __init__(self, ds:ItemList): self.classes = ds.classes`. -/
def SegmentationProcessor.init {β : Type} (ds : ItemListDS β) : SegmentationProcessor :=
  { classes := ds.classes }

/-- Embedding of `SegmentationProcessor.process` from the notebook:
`def process(self, ds:ItemList): ds.classes,ds.c = self.classes,len(self.classes)`.
The mutation of `ds` is modelled by returning the processor (whose state
the body never touches) next to the updated dataset. -/
def SegmentationProcessor.process {β : Type} (p : SegmentationProcessor)
    (ds : ItemListDS β) : SegmentationProcessor × ItemListDS β :=
  (p, { ds with classes := p.classes, c := p.classes.length })

/-- The loop indices of `Image.show_xys` from the notebook:
`rows = int(math.sqrt(len(xs)))` and the loop enumerates
`axs.flatten() if rows > 1 else [axs]`, i.e. the `rows * rows` axes of
`plt.subplots(rows, rows)` when `rows > 1` and the single wrapped axis
otherwise. -/
def show_xys_indices (n : ℕ) : List ℕ :=
  let rows := Nat.sqrt n
  if 1 < rows then List.range (rows * rows) else List.range 1

/-- The accesses performed by the body of the `Image.show_xys` loop:
iteration `i` evaluates `xs[i]` and `ys[i]` (an out-of-range index is a
Python `IndexError`, modelled as `none`). -/
def show_xys_loop {α : Type} (xs ys : List α) : List ℕ → Option (List (α × α))
  | [] => some []
  | i :: rest =>
    match xs.get? i, ys.get? i, show_xys_loop xs ys rest with
    | some x, some y, some tl => some ((x, y) :: tl)
    | _, _, _ => none

/-- Embedding of `Image.show_xys` from the notebook:
```
def show_xys(self, xs, ys, figsize=(9,10), **kwargs):
    rows = int(math.sqrt(len(xs)))
    fig, axs = plt.subplots(rows,rows,figsize=figsize)
    for i, ax in enumerate(axs.flatten() if rows > 1 else [axs]):
        xs[i].show(ax=ax, y=ys[i], **kwargs)
```
The result is the sequence of `(input, target)` pairs handed to `show`,
or `none` if some subscript raises. -/
def Image.show_xys {α : Type} (xs ys : List α) : Option (List (α × α)) :=
  show_xys_loop xs ys (show_xys_indices xs.length)

/-- One call of `x.show(...)` issued by `Image.show_xyzs`: the grid cell
`(row, col)` it draws on, the image drawn, and the `y` overlay passed to
`show`. -/
structure ShowEvent (α : Type) where
  row : ℕ
  col : ℕ
  img : α
  overlay : α
  deriving DecidableEq

/-- The loop of `Image.show_xyzs`: `for i,(x,y,z) in enumerate(zip(xs,ys,zs))`
with body `x.show(ax=axs[i,0], y=y); x.show(ax=axs[i,1], y=z)`. The first
argument is the running `enumerate` counter. -/
def show_xyzs_go {α : Type} : ℕ → List (α × α × α) → List (ShowEvent α)
  | _, [] => []
  | i, (x, y, z) :: rest =>
    ⟨i, 0, x, y⟩ :: ⟨i, 1, x, z⟩ :: show_xyzs_go (i + 1) rest

/-- Embedding of `Image.show_xyzs` from the notebook:
```
def show_xyzs(self, xs, ys, zs, figsize=None, **kwargs):
    figsize = ifnone(figsize, (6,3*len(xs)))
    fig,axs = plt.subplots(len(xs), 2, figsize=figsize)
    fig.suptitle('Ground truth / Predictions', weight='bold', size=14)
    for i,(x,y,z) in enumerate(zip(xs,ys,zs)):
        x.show(ax=axs[i,0], y=y, **kwargs)
        x.show(ax=axs[i,1], y=z, **kwargs)
```
The result is the sequence of `show` calls the loop issues. -/
def Image.show_xyzs {α : Type} (xs ys zs : List α) : List (ShowEvent α) :=
  show_xyzs_go 0 (xs.zip (ys.zip zs))

/-- Content category of one notebook cell. A markdown cell is `prose`
(its fenced code blocks are rendered text, never executed); a code cell
holding only `import` statements is `importOnly`; a code cell whose only
statement renders a documentation note is `docDisplay`; `systemLogic`
would be a code cell defining or running program logic of its own. -/
inductive CellContent where
  | prose
  | importOnly
  | docDisplay
  | systemLogic
  deriving DecidableEq

/-- The 26 cells of `docs_src/tutorial.itemlist.ipynb` in order: cell 0
is the title, cell 1 is the code cell `from fastai import *` /
`from fastai.gen_doc.nbdoc import *`, cells 2 to 20 are markdown prose
(several embedding fenced Python snippets), cell 21 is the code cell
calling `jekyll_note(...)`, and cells 22 to 25 are markdown prose. -/
def notebookCells : List CellContent :=
  [.prose, .importOnly,
   .prose, .prose, .prose, .prose, .prose, .prose, .prose, .prose,
   .prose, .prose, .prose, .prose, .prose, .prose, .prose, .prose,
   .prose, .prose, .prose,
   .docDisplay,
   .prose, .prose, .prose, .prose]

/-- A custom `ItemList` following the tutorial's basic scheme: the extra
constructor argument is kept in the state as `my_arg`. -/
structure MyCustomItemList (ι α : Type) where
  my_arg : α
  items : List ι

/-- Embedding of `MyCustomItemList.__init__` from the notebook:
`def __init__(self, items, my_arg, **kwargs): self.my_arg = my_arg; super().__init__(items, **kwargs)`. -/
def MyCustomItemList.init {ι α : Type} (items : List ι) (my_arg : α) :
    MyCustomItemList ι α :=
  { my_arg := my_arg, items := items }

/-- Embedding of `MyCustomItemList.new` from the notebook:
```
def new(self, items, **kwargs):
    super().new(items, self.my_arg, **kwargs)
```
The body evaluates `super().new(items, self.my_arg, **kwargs)` — here the
abstract `superNew` — but has no `return` statement, and a Python function
that falls off its end returns `None`; hence the `Option` result ending
in `none` after the discarded super call. -/
def MyCustomItemList.new {ι α : Type}
    (superNew : List ι → α → MyCustomItemList ι α)
    (self : MyCustomItemList ι α) (items : List ι) :
    Option (MyCustomItemList ι α) :=
  let _ := superNew items self.my_arg
  none

/-- Embedding of `MultiCategoryList.analyze_pred` from the notebook:
`def analyze_pred(self, pred, thresh:float=0.5): return (pred >= thresh).float()`.
The Python expression `(pred >= thresh)` is the elementwise comparison and
`.float()` turns `True`/`False` into `1.0`/`0.0`. -/
def analyze_pred (pred : Tensor) (thresh : ℚ := 1/2) : Tensor :=
  pred.map (fun p => if thresh ≤ p then (1 : ℚ) else 0)

end FastaiTutorial

namespace FastaiTutorial

/-- Entry `i` of `analyze_pred pred thresh` is the thresholded entry `i`
of `pred`. -/
lemma analyze_pred_get (pred : Tensor) (thresh : ℚ) (i : ℕ)
    (h : i < pred.length) :
    (analyze_pred pred thresh).get ⟨i, by simpa [analyze_pred] using h⟩ =
      if thresh ≤ pred.get ⟨i, h⟩ then 1 else 0 := by
  simp [analyze_pred]

/-- C1: `MultiCategoryList.analyze_pred(pred, thresh)` returns a tensor of
the same shape as `pred` whose entry at each position is `1.0` when the
corresponding entry of `pred` is `≥ thresh` and `0.0` otherwise; the
default threshold is `0.5`. -/
theorem analyze_pred_spec (pred : Tensor) (thresh : ℚ) (i : ℕ)
    (h : i < pred.length) :
    (analyze_pred pred thresh).length = pred.length ∧
    (thresh ≤ pred.get ⟨i, h⟩ →
      (analyze_pred pred thresh).get
        ⟨i, by simpa [analyze_pred] using h⟩ = 1) ∧
    (pred.get ⟨i, h⟩ < thresh →
      (analyze_pred pred thresh).get
        ⟨i, by simpa [analyze_pred] using h⟩ = 0) ∧
    analyze_pred pred = analyze_pred pred (1/2) := by
  refine ⟨by simp [analyze_pred], ?_, ?_, rfl⟩
  · intro hle
    rw [analyze_pred_get pred thresh i h, if_pos hle]
  · intro hlt
    rw [analyze_pred_get pred thresh i h, if_neg (not_le.mpr hlt)]

/-- Witness for C1: the theorem applied at `pred = [1/4, 3/4]`,
`thresh = 1/2`, `i = 1`. -/
theorem analyze_pred_spec_witness :
    (1 : ℕ) < ([1/4, 3/4] : Tensor).length ∧
    (analyze_pred [1/4, 3/4] (1/2)).length = ([1/4, 3/4] : Tensor).length :=
  ⟨by decide, (analyze_pred_spec [1/4, 3/4] (1/2) 1 (by decide)).1⟩

/-- C9: every entry of `analyze_pred pred thresh` is exactly `0` or `1`,
and the result is antitone in the threshold: raising the threshold can
only lower each entry. -/
theorem analyze_pred_binary_antitone (pred : Tensor) (t₁ t₂ : ℚ)
    (hts : t₁ ≤ t₂) (i : ℕ) (h : i < pred.length) :
    ((analyze_pred pred t₁).get ⟨i, by simpa [analyze_pred] using h⟩ = 0 ∨
     (analyze_pred pred t₁).get ⟨i, by simpa [analyze_pred] using h⟩ = 1) ∧
    (analyze_pred pred t₂).get ⟨i, by simpa [analyze_pred] using h⟩ ≤
      (analyze_pred pred t₁).get ⟨i, by simpa [analyze_pred] using h⟩ := by
  rw [analyze_pred_get pred t₁ i h, analyze_pred_get pred t₂ i h]
  constructor
  · by_cases hc : t₁ ≤ pred.get ⟨i, h⟩
    · right; rw [if_pos hc]
    · left; rw [if_neg hc]
  · by_cases hc : t₂ ≤ pred.get ⟨i, h⟩
    · rw [if_pos hc, if_pos (le_trans hts hc)]
    · rw [if_neg hc]
      by_cases hc₁ : t₁ ≤ pred.get ⟨i, h⟩
      · rw [if_pos hc₁]; norm_num
      · rw [if_neg hc₁]

/-- Witness for C9: the theorem applied at `pred = [2/3]`, thresholds
`1/2 ≤ 3/4`, `i = 0`. -/
theorem analyze_pred_binary_antitone_witness :
    ((1 : ℚ)/2 ≤ 3/4) ∧
    (analyze_pred [2/3] (3/4)).get ⟨0, by decide⟩ ≤
      (analyze_pred [2/3] (1/2)).get ⟨0, by decide⟩ :=
  ⟨by norm_num,
   (analyze_pred_binary_antitone [2/3] (1/2) (3/4) (by norm_num) 0
     (by decide)).2⟩

/-- C2: `ImageItemList.get i` reads the stored reference `items[i]`,
constructs the item by applying `open` (i.e. the external `open_image`)
to that filename, stores the constructed item's size at `sizes[i]`, and
returns the constructed item; `items` is untouched and every entry of
`sizes` other than index `i` is untouched. -/
theorem ImageItemList.get_spec (openImage : String → Image)
    (s : ImageItemListState) (i : ℕ) (h : i < s.items.length)
    (hsz : i < s.sizes.length) :
    (ImageItemList.get openImage s i h).1 = openImage (s.items.get ⟨i, h⟩) ∧
    (ImageItemList.get openImage s i h).2.items = s.items ∧
    (ImageItemList.get openImage s i h).2.sizes.get
        ⟨i, by simpa [ImageItemList.get] using hsz⟩ =
      some (ImageItemList.get openImage s i h).1.size ∧
    (∀ j : ℕ, j ≠ i →
      (ImageItemList.get openImage s i h).2.sizes.get? j =
        s.sizes.get? j) := by
  refine ⟨rfl, rfl, ?_, ?_⟩
  · simp [ImageItemList.get, ImageItemList.open_, List.getElem_set_self]
  · intro j hj
    simp [ImageItemList.get,
      List.getElem?_set_ne (fun hij => hj hij.symm)]

/-- Witness for C2: the theorem applied to a concrete two-file list at
index `1`. -/
theorem ImageItemList.get_spec_witness :
    (ImageItemList.get (fun _ => ⟨(2, 3), []⟩)
        ⟨["a.png", "b.png"], [none, none]⟩ 1 (by decide)).2.items =
      ["a.png", "b.png"] :=
  (ImageItemList.get_spec (fun _ => ⟨(2, 3), []⟩)
    ⟨["a.png", "b.png"], [none, none]⟩ 1 (by decide) (by decide)).2.1

/-- C3: `PointsItemList.reconstruct t x` returns
`ImagePoints(FlowField(x.size, t), scale=False)` — the flow field built
from the input's size and the tensor, with scaling off — and it inverts
`ItemBase.data`: reconstructing an item's data tensor against an input of
the item's own size gives the item back. -/
theorem PointsItemList.reconstruct_spec (t : Tensor) (x : Image)
    (p : ImagePoints) (hscale : p.scale = false)
    (hsize : p.flow.size = x.size) :
    PointsItemList.reconstruct t x =
      { flow := { size := x.size, flow := t }, scale := false } ∧
    PointsItemList.reconstruct (ImagePoints.data p) x = p := by
  refine ⟨rfl, ?_⟩
  cases p with
  | mk flow scale =>
    cases flow with
    | mk size pts =>
      simp only [PointsItemList.reconstruct, ImagePoints.data] at *
      simp [hscale, ← hsize]

/-- Witness for C3: the theorem applied to a concrete tensor, image and
points item whose flow size matches the image. -/
theorem PointsItemList.reconstruct_spec_witness :
    PointsItemList.reconstruct
        (ImagePoints.data ⟨⟨(4, 4), [1, 2]⟩, false⟩) ⟨(4, 4), []⟩ =
      ⟨⟨(4, 4), [1, 2]⟩, false⟩ :=
  (PointsItemList.reconstruct_spec [9] ⟨(4, 4), []⟩
    ⟨⟨(4, 4), [1, 2]⟩, false⟩ rfl rfl).2

/-- C4: a `SegmentationProcessor` constructed from `ds0` stores
`ds0.classes`; `process ds` sets `ds.classes` to the stored classes and
`ds.c` to their number, leaves every other attribute of `ds` unchanged,
and leaves the processor's own state unchanged. -/
theorem SegmentationProcessor.process_spec {β : Type}
    (ds0 ds : ItemListDS β) :
    (SegmentationProcessor.init ds0).classes = ds0.classes ∧
    ((SegmentationProcessor.init ds0).process ds).2.classes = ds0.classes ∧
    ((SegmentationProcessor.init ds0).process ds).2.c =
      ds0.classes.length ∧
    ((SegmentationProcessor.init ds0).process ds).2.other = ds.other ∧
    ((SegmentationProcessor.init ds0).process ds).1 =
      SegmentationProcessor.init ds0 :=
  ⟨rfl, rfl, rfl, rfl, rfl⟩

/-- C10: `process` is idempotent — applying it twice leaves the dataset
as applying it once — and overwriting — the resulting dataset depends
only on the processor's captured classes and the dataset's other
attributes, never on the dataset's prior `classes` or `c`. -/
theorem SegmentationProcessor.process_idempotent_overwriting {β : Type}
    (p : SegmentationProcessor) (ds ds' : ItemListDS β)
    (hoth : ds.other = ds'.other) :
    (p.process (p.process ds).2).2 = (p.process ds).2 ∧
    (p.process ds).2 = (p.process ds').2 := by
  constructor
  · rfl
  · simp [SegmentationProcessor.process, hoth]

/-- Witness for C10: the theorem applied to a concrete processor and two
datasets that differ in `classes` and `c` but share `other`. -/
theorem SegmentationProcessor.process_idempotent_overwriting_witness :
    (SegmentationProcessor.process ⟨["bg", "fg"]⟩
        ⟨["x"], 7, (0 : ℕ)⟩).2 =
      (SegmentationProcessor.process ⟨["bg", "fg"]⟩ ⟨[], 0, (0 : ℕ)⟩).2 :=
  (SegmentationProcessor.process_idempotent_overwriting ⟨["bg", "fg"]⟩
    ⟨["x"], 7, (0 : ℕ)⟩ ⟨[], 0, (0 : ℕ)⟩ rfl).2

/-- The loop of `show_xys` succeeds when every index it visits is in
bounds for both lists. -/
lemma show_xys_loop_isSome {α : Type} (xs ys : List α) (l : List ℕ)
    (h : ∀ i ∈ l, i < xs.length ∧ i < ys.length) :
    (show_xys_loop xs ys l).isSome := by
  induction l with
  | nil => simp [show_xys_loop]
  | cons i rest ih =>
    obtain ⟨hx, hy⟩ := h i (List.mem_cons_self i rest)
    have hrest := ih (fun j hj => h j (List.mem_cons_of_mem _ hj))
    obtain ⟨tl, htl⟩ := Option.isSome_iff_exists.mp hrest
    rw [show_xys_loop, List.get?_eq_get hx, List.get?_eq_get hy, htl]
    rfl

/-- C5: `Image.show_xys` indexes `xs` and `ys` only at positions `0`
through `rows * rows - 1` where `rows = ⌊√(len xs)⌋`; every access is in
bounds since `rows * rows ≤ len xs`; when `rows ≤ 1` exactly one
position, index `0`, is accessed; hence the call succeeds. -/
theorem Image.show_xys_safe {α : Type} (xs ys : List α)
    (hne : xs ≠ []) (hlen : ys.length = xs.length) :
    (∀ i ∈ show_xys_indices xs.length,
      i < Nat.sqrt xs.length * Nat.sqrt xs.length) ∧
    Nat.sqrt xs.length * Nat.sqrt xs.length ≤ xs.length ∧
    (Nat.sqrt xs.length ≤ 1 → show_xys_indices xs.length = [0]) ∧
    (∀ i ∈ show_xys_indices xs.length, i < xs.length) ∧
    (Image.show_xys xs ys).isSome := by
  have hn : 0 < xs.length := List.length_pos.mpr hne
  have hrows : 0 < Nat.sqrt xs.length := Nat.sqrt_pos.mpr hn
  have hsq : Nat.sqrt xs.length * Nat.sqrt xs.length ≤ xs.length :=
    Nat.sqrt_le xs.length
  have hmem : ∀ i ∈ show_xys_indices xs.length,
      i < Nat.sqrt xs.length * Nat.sqrt xs.length := by
    intro i hi
    unfold show_xys_indices at hi
    by_cases hc : 1 < Nat.sqrt xs.length
    · rw [if_pos hc] at hi
      exact List.mem_range.mp hi
    · rw [if_neg hc] at hi
      have : i < 1 := List.mem_range.mp hi
      calc i < 1 := this
        _ ≤ Nat.sqrt xs.length * Nat.sqrt xs.length :=
          Nat.one_le_iff_ne_zero.mpr (by positivity)
  have hbound : ∀ i ∈ show_xys_indices xs.length, i < xs.length :=
    fun i hi => lt_of_lt_of_le (hmem i hi) hsq
  refine ⟨hmem, hsq, ?_, hbound, ?_⟩
  · intro hle
    unfold show_xys_indices
    rw [if_neg (not_lt.mpr hle)]
    decide
  · exact show_xys_loop_isSome xs ys _
      (fun i hi => ⟨hbound i hi, hlen ▸ hbound i hi⟩)

/-- Witness for C5: the theorem applied to concrete five-element lists,
where `rows = 2` and four positions are accessed. -/
theorem Image.show_xys_safe_witness :
    (Image.show_xys ([10, 11, 12, 13, 14] : List ℕ)
      [20, 21, 22, 23, 24]).isSome :=
  (Image.show_xys_safe [10, 11, 12, 13, 14] [20, 21, 22, 23, 24]
    (by decide) (by decide)).2.2.2.2

/-- The loop of `show_xyzs` issues two `show` calls per element of the
zipped list. -/
lemma show_xyzs_go_length {α : Type} (k : ℕ) (l : List (α × α × α)) :
    (show_xyzs_go k l).length = 2 * l.length := by
  induction l generalizing k with
  | nil => rfl
  | cons hd rest ih =>
    obtain ⟨x, y, z⟩ := hd
    simp [show_xyzs_go, ih (k + 1)]
    omega

/-- The two `show` calls of iteration `i` of the `show_xyzs` loop: the
row is the enumerate counter, column `0` overlays the target, column `1`
overlays the prediction, both over the same input. -/
lemma show_xyzs_go_get? {α : Type} (k : ℕ) (l : List (α × α × α)) (i : ℕ)
    (h : i < l.length) :
    (show_xyzs_go k l).get? (2 * i) =
      some ⟨k + i, 0, (l.get ⟨i, h⟩).1, (l.get ⟨i, h⟩).2.1⟩ ∧
    (show_xyzs_go k l).get? (2 * i + 1) =
      some ⟨k + i, 1, (l.get ⟨i, h⟩).1, (l.get ⟨i, h⟩).2.2⟩ := by
  induction l generalizing k i with
  | nil => exact absurd h (Nat.not_lt_zero i)
  | cons hd rest ih =>
    obtain ⟨x, y, z⟩ := hd
    cases i with
    | zero => exact ⟨rfl, rfl⟩
    | succ j =>
      have hj : j < rest.length := by
        simpa [Nat.succ_lt_succ_iff] using h
      have h2 : 2 * (j + 1) = 2 * j + 1 + 1 := by omega
      have h2' : 2 * (j + 1) + 1 = (2 * j + 1) + 1 + 1 := by omega
      have hk : k + (j + 1) = (k + 1) + j := by omega
      refine ⟨?_, ?_⟩
      · rw [h2, show_xyzs_go]
        simpa [hk] using (ih (k + 1) j hj).1
      · rw [h2', show_xyzs_go]
        simpa [hk] using (ih (k + 1) j hj).2

/-- C6: with equal-length `xs`, `ys`, `zs`, the `show_xyzs` loop runs
exactly `len xs` times (the length of `zip(xs, ys, zs)`), issuing two
`show` calls per iteration, and iteration `i` draws input `xs[i]` with
target `ys[i]` in column `0` and the same input `xs[i]` with prediction
`zs[i]` in column `1` of row `i`. -/
theorem Image.show_xyzs_spec {α : Type} (xs ys zs : List α)
    (hy : ys.length = xs.length) (hz : zs.length = xs.length)
    (i : ℕ) (h : i < xs.length) :
    (xs.zip (ys.zip zs)).length = xs.length ∧
    (Image.show_xyzs xs ys zs).length = 2 * xs.length ∧
    (Image.show_xyzs xs ys zs).get? (2 * i) =
      some ⟨i, 0, xs.get ⟨i, h⟩, ys.get ⟨i, by omega⟩⟩ ∧
    (Image.show_xyzs xs ys zs).get? (2 * i + 1) =
      some ⟨i, 1, xs.get ⟨i, h⟩, zs.get ⟨i, by omega⟩⟩ := by
  have hzlen : (xs.zip (ys.zip zs)).length = xs.length := by
    simp [List.length_zip, hy, hz]
  have hi : i < (xs.zip (ys.zip zs)).length := by omega
  have hget : (xs.zip (ys.zip zs)).get ⟨i, hi⟩ =
      (xs.get ⟨i, h⟩, ys.get ⟨i, by omega⟩, zs.get ⟨i, by omega⟩) := by
    have h1 := @List.get_zip _ _ xs (ys.zip zs) ⟨i, hi⟩
    have h2 := @List.get_zip _ _ ys zs
      ⟨i, List.lt_length_right_of_zip hi⟩
    simp only [h1, h2]
  obtain ⟨he0, he1⟩ := show_xyzs_go_get? 0 (xs.zip (ys.zip zs)) i hi
  rw [hget] at he0 he1
  refine ⟨hzlen, ?_, ?_, ?_⟩
  · unfold Image.show_xyzs
    rw [show_xyzs_go_length, hzlen]
  · simpa [Image.show_xyzs] using he0
  · simpa [Image.show_xyzs] using he1

/-- Witness for C6: the theorem applied to concrete two-element lists at
iteration `1`. -/
theorem Image.show_xyzs_spec_witness :
    (Image.show_xyzs ([1, 2] : List ℕ) [3, 4] [5, 6]).get? 2 =
      some ⟨1, 0, 2, 4⟩ :=
  (Image.show_xyzs_spec [1, 2] [3, 4] [5, 6] rfl rfl 1 (by decide)).2.2.1

/-- C7: the notebook holds no executable system logic of its own: every
cell is either markdown prose (whose code fragments are illustrative
snippets embedded in the text), the single code cell that only pulls in
the library namespaces, or the single code cell that only renders a
documentation note; no cell is `systemLogic`. -/
theorem notebook_no_system_logic :
    notebookCells.length = 26 ∧
    CellContent.systemLogic ∉ notebookCells ∧
    notebookCells.filter (fun c => decide (c ≠ CellContent.prose)) =
      [CellContent.importOnly, CellContent.docDisplay] := by
  refine ⟨rfl, by decide, by decide⟩

/-- C8: `MyCustomItemList.new` as written in the tutorial's basic scheme
returns `None` for every receiver and `items` argument, whatever the
super method would have produced: the super call's result is computed
but never returned. -/
theorem MyCustomItemList.new_returns_none {ι α : Type}
    (superNew : List ι → α → MyCustomItemList ι α)
    (self : MyCustomItemList ι α) (items : List ι) :
    MyCustomItemList.new superNew self items = none :=
  rfl

end FastaiTutorial
